import Mathlib

/-!
Verification of the `agent-loop` repository's loop controller against its
natural-language specification.  The Python sources (`src/agent_loop/*.py`)
are shallowly embedded below: pure functions become Lean functions, the
stateful loop becomes explicit state passing plus an event-trace semantics,
and external collaborators (the agent subprocess, the git repository, the
filesystem) become explicit parameters describing their observable
behaviour.
-/

namespace AgentLoop

/-! ## Data model (`preset.py`) -/

/-- Embeds the `Mode` dataclass of `preset.py`: a named prompt. -/
structure Mode where
  name : String
  prompt : String
deriving DecidableEq

/-- Embeds the `Settings` dataclass of `preset.py`. -/
structure Settings where
  model : Option String := none
  commit_message_template : String := "[\x7bmode\x7d] iteration \x7bn\x7d"
deriving DecidableEq

/-- Embeds the `Preset` dataclass of `preset.py` (the `files` targeting
configuration and the on-disk `path` are filesystem concerns; file
resolution is passed to the loop as an explicit list instead). -/
structure Preset where
  name : String
  description : String
  modes : List Mode
  settings : Settings := {}
deriving DecidableEq

/-! ## Python string helpers

`str.strip` / `str.rstrip` as used by the repository, embedded directly on
the character list so that all proofs can compute. -/

/-- Embeds Python `str.strip()`. -/
def pyStrip (s : String) : String :=
  ⟨((s.data.dropWhile Char.isWhitespace).reverse.dropWhile Char.isWhitespace).reverse⟩

/-- Embeds Python `str.rstrip()`. -/
def pyRStrip (s : String) : String :=
  ⟨(s.data.reverse.dropWhile Char.isWhitespace).reverse⟩

/-! ## Agent invoker (`runner.py`, `run_opencode`) -/

/-- Observable outcome of the attempted `subprocess.run` of the `opencode`
executable: it ran and exited with a code, or the executable was missing
(Python `FileNotFoundError`). -/
inductive ExecOutcome where
  | exit (code : Int)
  | notFound
deriving DecidableEq

/-- Embeds `run_opencode` of `runner.py`.  The first component is the
returned boolean; the second records whether an agent subprocess actually
ran (dry-run mode returns `True` before reaching `subprocess.run`, and a
missing executable means nothing ran).  The `FileNotFoundError` branch is
caught in the source and turned into `False`, hence the function is total
rather than `Except`-valued. -/
def runOpencode (prompt : String) (model : Option String) (dryRun : Bool)
    (outcome : ExecOutcome) : Bool × Bool :=
  let _ := prompt
  let _ := model
  if dryRun then (true, false)
  else
    match outcome with
    | .exit code => (code == 0, true)
    | .notFound => (false, false)

/-! ## Iteration prompt (`loop.py`, `_format_prompt`) -/

/-- Embeds `"\n".join(f"- \x7bf\x7d" for f in files)` from `_format_prompt`. -/
def fileListLines (files : List String) : String :=
  String.intercalate "\n" (files.map (fun f => "- " ++ f))

/-- Character-level embedding of `mode_prompt.format(files=file_list)`:
every occurrence of the `files` placeholder is replaced by the file list.
(The prompts the repository feeds through `str.format` contain no other
replacement fields or brace escapes, so only this placeholder is
modelled.) -/
def substFiles (v : List Char) : List Char → List Char
  | '\x7b' :: 'f' :: 'i' :: 'l' :: 'e' :: 's' :: '\x7d' :: rest => v ++ substFiles v rest
  | c :: rest => c :: substFiles v rest
  | [] => []

/-- Embeds `LoopRunner._format_prompt` of `loop.py`. -/
def formatPrompt (modePrompt : String) (files : List String) : String :=
  ⟨substFiles (fileListLines files).data modePrompt.data⟩

/-- Character-level embedding of
`template.format(mode=mode.name, n=self.iteration + 1)` used for the
per-iteration commit message. -/
def substTemplate (modeName nStr : List Char) : List Char → List Char
  | '\x7b' :: 'm' :: 'o' :: 'd' :: 'e' :: '\x7d' :: rest => modeName ++ substTemplate modeName nStr rest
  | '\x7b' :: 'n' :: '\x7d' :: rest => nStr ++ substTemplate modeName nStr rest
  | c :: rest => c :: substTemplate modeName nStr rest
  | [] => []

/-- Embeds the commit-message template instantiation in `_run_iteration`. -/
def formatCommitMessage (template modeName : String) (n : Nat) : String :=
  ⟨substTemplate modeName.data (toString n).data template.data⟩

/-! ## Loop state and the per-iteration step (`loop.py`) -/

/-- Embeds the mutable state of `LoopRunner` as set up by `__init__`:
`self.iteration`, `self.start_commit` and `self._interrupted`.  These are
the only run-time state fields the class has. -/
structure LoopState where
  iteration : Nat
  startCommit : Option String
  interrupted : Bool
deriving DecidableEq

/-- Observable effects of one call to `LoopRunner._run_iteration`:
which mode was selected, the prompt sent to the agent, whether a commit
was made and with which message, whether a review pass was invoked, and
the returned continue (`true`) / stop (`false`) signal. -/
structure IterEffects where
  modeUsed : Mode
  promptUsed : String
  committed : Bool
  commitMessage : Option String
  reviewInvoked : Bool
  signal : Bool
deriving DecidableEq

/-- Embeds `LoopRunner._run_iteration` of `loop.py` (lines 48-97).
External inputs are made explicit: `files` is the result of
`resolve_files`, `agentSuccess` the boolean returned by `run_opencode`,
and `hasChanges` the answer of `has_changes(repo)`.  `none` models the
`ZeroDivisionError` Python would raise on an empty mode list
(`self.iteration % len(self.preset.modes)`).  The source commits whenever
there are changes and the run is not dry, increments `self.iteration`,
makes no review call, and ends with `return True`. -/
def runIteration (p : Preset) (dryRun : Bool) (files : List String)
    (agentSuccess hasChanges : Bool) (st : LoopState) :
    Option (LoopState × IterEffects) :=
  let _ := agentSuccess
  match p.modes[st.iteration % p.modes.length]? with
  | none => none
  | some mode =>
      let prompt := formatPrompt mode.prompt files
      let doCommit := !dryRun && hasChanges
      some ({ st with iteration := st.iteration + 1 },
        { modeUsed := mode
          promptUsed := prompt
          committed := doCommit
          commitMessage :=
            if doCommit then
              some (formatCommitMessage p.settings.commit_message_template mode.name
                (st.iteration + 1))
            else none
          reviewInvoked := false
          signal := true })

/-! ## Interruption and the main loop (`loop.py`, `_handle_interrupt` / `run`)

The only asynchronous input is the SIGINT signal; a run is therefore
modelled as a list of events processed in order.  `LoopEvent.iterate`
stands for the `while` loop reaching its top: the loop-condition and
max-iteration checks run, followed by one full call of `_run_iteration`
if they pass.  `LoopEvent.interrupt` stands for one delivery of SIGINT to
`_handle_interrupt` while the handler installed by `run` is active; the
handler only sets a flag, so a signal landing inside an iteration commutes
with the rest of that iteration's body and is placed at the following
event boundary. -/

/-- Embeds the Python truthiness test
`if self.max_iterations and self.iteration >= self.max_iterations` at the
top of the `while` loop in `run` (`None` and `0` are both falsy). -/
def maxIterationsReached (maxIterations : Option Int) (iteration : Nat) : Bool :=
  match maxIterations with
  | none => false
  | some m => m != 0 && decide ((iteration : Int) ≥ m)

/-- Embeds `LoopRunner._handle_interrupt`: given the current
`self._interrupted` flag, returns the new flag and whether the handler
forces process termination (`sys.exit(1)` on a second interrupt). -/
def handleInterrupt (interrupted : Bool) : Bool × Bool :=
  if interrupted then (interrupted, true) else (true, false)

/-- One observable event during `run`: the loop reaching its top, or a
SIGINT delivery. -/
inductive LoopEvent where
  | iterate
  | interrupt
deriving DecidableEq

/-- Result of processing an event schedule: the process was force-killed
by a second interrupt (`forced`), the loop exited and finalization ran the
squash iff its guard held (`finished`), or the schedule ended with the
loop still live (`running`). -/
inductive RunResult where
  | forced (iterations : Nat)
  | finished (iterations : Nat) (squashRan : Bool)
  | running (iterations : Nat)
deriving DecidableEq

/-- Whether the squash finalization ran in this outcome.  `sys.exit(1)`
raised by the handler propagates out of `run` before the
`if self.auto_squash and ...` line, so a forced exit never squashes. -/
def RunResult.didSquash : RunResult → Bool
  | .finished _ s => s
  | _ => false

/-- Embeds the guard on finalization in `run`:
`if self.auto_squash and not self.dry_run and self.start_commit`. -/
def squashGuard (autoSquash dryRun : Bool) (startCommit : Option String) : Bool :=
  autoSquash && !dryRun && startCommit.isSome

/-- Event-trace embedding of the `while` loop in `LoopRunner.run`
(lines 131-142): the loop condition `not self._interrupted` is checked at
the top, then the max-iterations break, then `_run_iteration()` runs (its
return value is discarded by the source).  `guard` is the finalization
guard `squashGuard`, constant for the whole run. -/
def runLoop (guard : Bool) (maxIterations : Option Int) :
    List LoopEvent → Bool → Nat → RunResult
  | [], _, n => .running n
  | .iterate :: es, interrupted, n =>
      if interrupted then .finished n guard
      else if maxIterationsReached maxIterations n then .finished n guard
      else runLoop guard maxIterations es interrupted (n + 1)
  | .interrupt :: es, interrupted, n =>
      let h := handleInterrupt interrupted
      if h.2 then .forced n
      else runLoop guard maxIterations es h.1 n

/-! ## Git operations (`git.py`) and the squash finalization

The repository is modelled as its linear commit history, newest first. -/

/-- One git commit: hash and message. -/
structure Commit where
  hash : String
  message : String
deriving DecidableEq

/-- The git repository seen through the adapter functions of `git.py`. -/
structure Repo where
  commits : List Commit
deriving DecidableEq

/-- Embeds `get_current_commit` (`repo.head.commit.hexsha`); `none` models
the error git raises on a repository with no commits. -/
def getCurrentCommit (r : Repo) : Option String :=
  r.commits.head?.map Commit.hash

/-- Embeds `get_commits_since`: the commits in `since..HEAD`, oldest
first.  An unknown base revision makes `iter_commits` raise, which the
source catches and turns into `[]`. -/
def getCommitsSince (r : Repo) (commitHash : String) : List Commit :=
  if r.commits.any (fun c => c.hash == commitHash) then
    (r.commits.takeWhile (fun c => c.hash != commitHash)).reverse
  else []

/-- First line of a stripped commit message, as in
`msg.strip().split(chr(10))[0]`. -/
def firstLineChars : List Char → List Char
  | [] => []
  | '\n' :: _ => []
  | c :: cs => c :: firstLineChars cs

/-- Embeds `squash_commits` of `git.py`: nothing to do when no commits
follow `sinceCommit`; otherwise soft-reset to `sinceCommit` and create one
commit holding all accumulated changes.  `newHash` stands for the hash git
assigns to the new commit. -/
def squashCommits (r : Repo) (sinceCommit : String) (message : Option String)
    (newHash : String) : Repo × Bool :=
  let commits := getCommitsSince r sinceCommit
  if commits.isEmpty then (r, false)
  else
    let msg :=
      match message with
      | some m => m
      | none =>
          "Squashed commits:\n" ++
            String.intercalate "\n"
              (commits.map (fun c => "- " ++ (⟨firstLineChars (pyStrip c.message).data⟩ : String)))
    ({ commits := ⟨newHash, msg⟩ :: r.commits.dropWhile (fun c => c.hash != sinceCommit) }, true)

/-- The fixed message `_do_squash` builds:
`f"[agent-loop] \x7bself.preset.name\x7d: \x7bself.iteration\x7d iterations"`. -/
def squashFallbackMessage (presetName : String) (iteration : Nat) : String :=
  "[agent-loop] " ++ presetName ++ ": " ++ toString iteration ++ " iterations"

/-- Embeds `LoopRunner._do_squash` (lines 144-165): early return without
a start commit; no-op when the current revision equals the start commit;
otherwise squash with the fixed message.  `none` models the git failure
on an empty repository in `get_current_commit`. -/
def doSquash (presetName : String) (iteration : Nat) (startCommit : Option String)
    (r : Repo) (newHash : String) : Option (Repo × Bool) :=
  match startCommit with
  | none => some (r, false)
  | some start =>
      match getCurrentCommit r with
      | none => none
      | some current =>
          if current = start then some (r, false)
          else some (squashCommits r start (some (squashFallbackMessage presetName iteration)) newHash)

/-! ## Review pass (`review.py`) -/

/-- Modelled from the spec: the `ReviewConfig` dataclass is imported by
`review.py` and constructed throughout `tests/`, but its definition is
missing from `preset.py`; the fields follow spec §3 `ReviewConfiguration`
(`enabled`, `checkPrompt`, `filterPrompt`, optional `fixPrompt`, optional
`scopeGlobs`). -/
structure ReviewConfig where
  enabled : Bool := true
  check_prompt : String := ""
  filter_prompt : String := ""
  fix_prompt : Option String := none
  scope_globs : Option (List String) := none
deriving DecidableEq

/-- Embeds the `parts` list built by `build_review_prompt` of `review.py`
(lines 9-56), one entry per `parts.append`.  The Python truthiness tests
`if config.check_prompt:` / `if config.filter_prompt:` /
`if config.fix_prompt:` are non-emptiness (and non-`None`) tests.  The
source contains no section for `scope_globs`. -/
def buildReviewPromptParts (preset : Preset) (config : ReviewConfig) : List String :=
  ["Task: " ++ preset.description,
   "",
   "A cycle of work has been completed. Review and finalize the changes.",
   "",
   "Use `git diff` to see what was changed. Focus only on changes related to the task above.",
   "If there are unrelated modified files, ignore them—do not include them in your review or commit.",
   ""]
  ++ (if config.check_prompt ≠ "" then
        ["**Review scope:**", pyStrip config.check_prompt, ""] else [])
  ++ (if config.filter_prompt ≠ "" then
        ["**Before acting, filter your feedback:**", pyStrip config.filter_prompt, ""] else [])
  ++ ["**Fix:**",
      (match config.fix_prompt with
       | some fp => if fp = "" then "If actionable issues remain after filtering, fix them." else pyStrip fp
       | none => "If actionable issues remain after filtering, fix them."),
      ""]
  ++ ["**Commit:**",
      "Stage and commit only the files related to the task.",
      "Use a clear commit message summarizing what was accomplished.",
      "If there are no changes to commit (nothing relevant was modified), do nothing."]

/-- Embeds `build_review_prompt`: `"\n".join(parts)`. -/
def buildReviewPrompt (preset : Preset) (config : ReviewConfig) : String :=
  String.intercalate "\n" (buildReviewPromptParts preset config)

/-- Embeds `run_review_cycle` of `review.py`: skipped (reporting success)
when disabled, otherwise one agent invocation on the review prompt. -/
def runReviewCycle (preset : Preset) (config : ReviewConfig) (dryRun : Bool)
    (outcome : ExecOutcome) : Bool :=
  if !config.enabled then true
  else (runOpencode (buildReviewPrompt preset config) none dryRun outcome).1

/-! ## Mode prompt composition described by the spec -/

/-- Modelled from the spec: `buildModePrompt` (spec §4.2), alias the
`Preset.get_full_prompt` method exercised by `tests/test_preset.py` but
absent from `preset.py` — the parts present among right-stripped prefix,
stripped mode prompt and stripped suffix, joined by one blank line. -/
def buildModePromptSpec (pre : Option String) (modePrompt : String)
    (suf : Option String) : String :=
  String.intercalate "\n\n"
    ((pre.toList.map pyRStrip) ++ [pyStrip modePrompt] ++ (suf.toList.map pyStrip))

/-! ## Concrete fixtures (mirroring `tests/`) -/

/-- The single-mode preset used by the consecutive-failure tests in
`tests/test_loop.py`. -/
def presetSingle : Preset :=
  { name := "test", description := "", modes := [{ name := "review", prompt := "Review." }] }

/-- A single-mode preset whose mode prompt carries surrounding
whitespace, matching the spec's `buildModePrompt` round-trip example. -/
def presetSingleB : Preset :=
  { name := "test", description := "", modes := [{ name := "b", prompt := "\n  B  \n" }] }

/-- The two-mode preset used by the review-trigger tests in
`tests/test_loop.py`. -/
def presetTwoModes : Preset :=
  { name := "test", description := "",
    modes := [{ name := "accuracy", prompt := "Check accuracy." },
              { name := "clarity", prompt := "Check clarity." }] }

/-- The preset used by the review-prompt tests in `tests/test_review.py`. -/
def presetReviewTest : Preset :=
  { name := "test", description := "Test", modes := [] }

/-- The review configuration of
`tests/test_review.py::test_scope_globs_included_in_prompt`. -/
def reviewConfigGlobs : ReviewConfig :=
  { enabled := true, check_prompt := "Check.", filter_prompt := "Filter.",
    fix_prompt := none, scope_globs := some ["*.md", "docs/**"] }

/-- The state `LoopRunner.__init__` creates (`iteration = 0`,
`start_commit = None`, `_interrupted = False`). -/
def initialLoopState : LoopState :=
  { iteration := 0, startCommit := none, interrupted := false }

/-- Runs `k` successive dry-run iterations from `st` and records, for
each, whether `_run_iteration` invoked the review pass. -/
def reviewInvocations (p : Preset) : Nat → LoopState → List Bool
  | 0, _ => []
  | k + 1, st =>
      match runIteration p true [] true false st with
      | none => []
      | some (st', eff) => eff.reviewInvoked :: reviewInvocations p k st'

/-! ## Theorems for the claims -/

/-- Dropping the commits that precede a revision present in the history
lands exactly on that revision. -/
theorem dropWhile_hash_mem (start : String) :
    ∀ l : List Commit, start ∈ l.map Commit.hash →
      ∃ c tl, l.dropWhile (fun x => x.hash != start) = c :: tl ∧ c.hash = start := by
  intro l
  induction l with
  | nil => intro hmem; simp at hmem
  | cons c tl ih =>
      intro hmem
      by_cases hc : c.hash = start
      · exact ⟨c, tl, by simp [List.dropWhile_cons_of_neg, hc], hc⟩
      · have hmem' : start ∈ tl.map Commit.hash := by
          rcases List.mem_cons.mp hmem with h | h
          · exact absurd h.symm hc
          · exact h
        obtain ⟨c', tl', hd, hh⟩ := ih hmem'
        refine ⟨c', tl', ?_, hh⟩
        rw [List.dropWhile_cons_of_pos (by simp [hc]), hd]

/-- C1: the claim says `_run_iteration` returns the stop signal exactly
when a configured `maxConsecutiveFailures` threshold has just been reached.
The source has no such threshold and no failure count: for the single-mode
preset of the repository's own failure tests, the step returns the
continue signal from every state, in particular after arbitrarily many
consecutive agent failures (`agentSuccess = false`). -/
theorem runIteration_signal_always_continue
    (dryRun : Bool) (files : List String) (success hasChanges : Bool) (st : LoopState) :
    (runIteration presetSingle dryRun files success hasChanges st).map
      (fun r => r.2.signal) = some true := by
  simp [runIteration, presetSingle, Nat.mod_one]

/-- C2: the claim (and `tests/test_loop.py`) require the review pass
after each completed mode cycle, pattern `[false, true, false]` over three
iterations of a two-mode preset.  The source's `_run_iteration` never
invokes `run_review_cycle`, so the pattern is `[false, false, false]`. -/
theorem reviewInvocations_all_false :
    reviewInvocations presetTwoModes 3 initialLoopState = [false, false, false] ∧
      [false, false, false] ≠ [false, true, false] := by
  exact ⟨by decide, by decide⟩

/-- C3: for every non-empty mode list the step at state `st` succeeds,
uses exactly `modes[iteration % len(modes)]`, advances the iteration
counter by one, and selects the same mode again `len(modes)` iterations
later (a full cycle completes exactly every `L` iterations). -/
theorem runIteration_mode_cycles (p : Preset) (dryRun : Bool) (files : List String)
    (success hasChanges : Bool) (st : LoopState) (h : p.modes ≠ []) :
    ∃ st' eff, runIteration p dryRun files success hasChanges st = some (st', eff) ∧
      p.modes[st.iteration % p.modes.length]? = some eff.modeUsed ∧
      st'.iteration = st.iteration + 1 ∧
      (runIteration p dryRun files success hasChanges
          { st with iteration := st.iteration + p.modes.length }).map
        (fun r => r.2.modeUsed) = some eff.modeUsed := by
  have hL : 0 < p.modes.length := List.length_pos.mpr h
  have hlt : st.iteration % p.modes.length < p.modes.length := Nat.mod_lt _ hL
  obtain ⟨m, hm⟩ : ∃ m, p.modes[st.iteration % p.modes.length]? = some m :=
    ⟨_, List.getElem?_eq_getElem hlt⟩
  refine ⟨{ st with iteration := st.iteration + 1 },
    { modeUsed := m
      promptUsed := formatPrompt m.prompt files
      committed := !dryRun && hasChanges
      commitMessage :=
        if !dryRun && hasChanges then
          some (formatCommitMessage p.settings.commit_message_template m.name
            (st.iteration + 1))
        else none
      reviewInvoked := false
      signal := true }, ?_, ?_, rfl, ?_⟩
  · simp [runIteration, hm]
  · exact hm
  · simp [runIteration, Nat.add_mod_right, hm]

/-- Witness for C3 at the two-mode preset and a concrete state. -/
theorem runIteration_mode_cycles_witness :
    ∃ st' eff,
      runIteration presetTwoModes true [] true false
          { iteration := 1, startCommit := none, interrupted := false } = some (st', eff) ∧
      presetTwoModes.modes[1 % presetTwoModes.modes.length]? = some eff.modeUsed ∧
      st'.iteration = 1 + 1 ∧
      (runIteration presetTwoModes true [] true false
          { iteration := 1 + presetTwoModes.modes.length, startCommit := none,
            interrupted := false }).map (fun r => r.2.modeUsed) = some eff.modeUsed :=
  runIteration_mode_cycles presetTwoModes true [] true false
    { iteration := 1, startCommit := none, interrupted := false } (by decide)

/-- C4: the claim (and `tests/test_loop.py`) require a consecutive-failure
counter reset by success and incremented by failure.  The source's
`LoopState` has no such field, and `_run_iteration` produces the same
state and effects whatever boolean the agent invocation returned. -/
theorem runIteration_ignores_agent_result (p : Preset) (dryRun : Bool)
    (files : List String) (s₁ s₂ hasChanges : Bool) (st : LoopState) :
    runIteration p dryRun files s₁ hasChanges st =
      runIteration p dryRun files s₂ hasChanges st := rfl

/-- C9: in dry-run mode `run_opencode` reports success and runs no
subprocess, for every prompt, model and would-be subprocess outcome; and
when the executable cannot be located it reports failure (the caught
`FileNotFoundError` branch) instead of raising. -/
theorem runOpencode_dry_run_and_not_found :
    (∀ (prompt : String) (model : Option String) (outcome : ExecOutcome),
        runOpencode prompt model true outcome = (true, false)) ∧
    (∀ (prompt : String) (model : Option String),
        (runOpencode prompt model false ExecOutcome.notFound).1 = false) := by
  exact ⟨fun _ _ _ => rfl, fun _ _ => rfl⟩

/-- C6: a second SIGINT delivered while the first is still pending (the
`_interrupted` flag set, the loop not yet exited) force-terminates at once
— the rest of the schedule is never processed — and a forced exit never
runs the squash finalization; a first SIGINT only sets the flag without
forcing an exit, so the iteration in flight completes, after which the
loop exits at its next check and finalization still runs when its guard
holds. -/
theorem interrupt_protocol :
    (∀ (guard : Bool) (mi : Option Int) (es : List LoopEvent) (n : Nat),
        runLoop guard mi (LoopEvent.interrupt :: LoopEvent.interrupt :: es) false n =
          RunResult.forced n) ∧
    (∀ n : Nat, (RunResult.forced n).didSquash = false) ∧
    handleInterrupt false = (true, false) ∧
    (∀ (es : List LoopEvent) (n : Nat),
        runLoop true none (LoopEvent.iterate :: LoopEvent.interrupt :: LoopEvent.iterate :: es)
            false n = RunResult.finished (n + 1) true) := by
  refine ⟨fun guard mi es n => ?_, fun n => rfl, rfl, fun es n => ?_⟩
  · simp [runLoop, handleInterrupt]
  · simp [runLoop, handleInterrupt, maxIterationsReached]

/-- C10 counterexample: the claim says the max-iterations branch triggers
only for values greater than `0`, but the Python truthiness test accepts
any nonzero integer: with `max_iterations = -1` the branch is taken
immediately (iteration `0`), stopping the loop, although `-1 > 0` fails. -/
theorem maxIterations_negative_triggers :
    maxIterationsReached (some (-1)) 0 = true ∧
    ¬ ((-1 : Int) > 0) ∧
    runLoop false (some (-1)) [LoopEvent.iterate] false 0 = RunResult.finished 0 false := by
  refine ⟨by decide, by decide, ?_⟩
  simp [runLoop, maxIterationsReached]

/-- C10 amended: `max_iterations = 0` is treated exactly like `None` — the
whole loop behaves identically on every schedule and the stop branch is
never taken — and for a nonzero configured value `m` the branch triggers
precisely when the iteration count has reached `m`;  in particular it also
triggers (immediately) for negative values, not only for values greater
than `0`. -/
theorem maxIterations_zero_unlimited :
    (∀ (guard : Bool) (es : List LoopEvent) (interrupted : Bool) (n : Nat),
        runLoop guard (some 0) es interrupted n = runLoop guard none es interrupted n) ∧
    (∀ i : Nat, maxIterationsReached (some 0) i = false ∧
        maxIterationsReached none i = false) ∧
    (∀ (m : Int) (i : Nat), m ≠ 0 →
        (maxIterationsReached (some m) i = true ↔ m ≤ (i : Int))) := by
  refine ⟨fun guard es => ?_, fun i => ⟨by simp [maxIterationsReached], rfl⟩,
    fun m i hm => ?_⟩
  · induction es with
    | nil => intro interrupted n; rfl
    | cons e tl ih =>
        intro interrupted n
        cases e with
        | iterate =>
            by_cases hi : interrupted <;>
              simp [runLoop, maxIterationsReached, hi, ih]
        | interrupt =>
            by_cases hi : interrupted <;>
              simp [runLoop, handleInterrupt, hi, ih]
  · simp [maxIterationsReached, hm]

/-- Witness for C10's amended theorem: with `max_iterations = 2` the
branch is taken at iteration `3`. -/
theorem maxIterations_zero_unlimited_witness :
    maxIterationsReached (some 2) 3 = true :=
  (maxIterations_zero_unlimited.2.2 2 3 (by decide)).mpr (by decide)

/-- C7: the claim requires the iteration prompt to be the trimmed
prefix/mode/suffix join of spec §4.2 (`P\n\nB\n\nS` on its round-trip
example).  The source's `_run_iteration` instead sends the mode prompt
through `_format_prompt`, which only substitutes the resolved file list
for the `files` placeholder and never trims or wraps: on the example mode
prompt the code keeps the surrounding whitespace, differing from the
spec-mandated composition. -/
theorem iteration_prompt_not_composed :
    buildModePromptSpec (some "P  \n") "\n  B  \n" (some "\n  S") = "P\n\nB\n\nS" ∧
    formatPrompt "\n  B  \n" [] = "\n  B  \n" ∧
    formatPrompt "\n  B  \n" [] ≠ buildModePromptSpec none "\n  B  \n" none ∧
    (∀ (dryRun : Bool) (files : List String) (success hasChanges : Bool) (st : LoopState),
        (runIteration presetSingleB dryRun files success hasChanges st).map
          (fun r => r.2.promptUsed) = some (formatPrompt "\n  B  \n" files)) := by
  refine ⟨by decide, by decide, by decide, fun dryRun files success hasChanges st => ?_⟩
  simp [runIteration, presetSingleB, Nat.mod_one]

/-- C8: the claim (and
`tests/test_review.py::test_scope_globs_included_in_prompt`) require a
`Files in scope:` section exactly when `scope_globs` is present and
non-empty.  On the test's own configuration the source's
`build_review_prompt` emits the check, filter and fix sections but no
`Files in scope:` section at all, and its output does not depend on
`scope_globs` in any way. -/
theorem review_prompt_missing_scope_section :
    (buildReviewPromptParts presetReviewTest reviewConfigGlobs).contains
        "**Review scope:**" = true ∧
    (buildReviewPromptParts presetReviewTest reviewConfigGlobs).contains
        "**Before acting, filter your feedback:**" = true ∧
    (buildReviewPromptParts presetReviewTest reviewConfigGlobs).contains
        "**Fix:**" = true ∧
    (buildReviewPromptParts presetReviewTest reviewConfigGlobs).contains
        "**Files in scope:**" = false ∧
    (∀ globs : Option (List String),
        buildReviewPrompt presetReviewTest { reviewConfigGlobs with scope_globs := globs } =
          buildReviewPrompt presetReviewTest reviewConfigGlobs) := by
  exact ⟨by decide, by decide, by decide, by decide, fun globs => rfl⟩

/-- C5: the finalization guard passes only when auto-squash is on, the
run was not dry and a start revision was captured; `_do_squash` is a
no-op — the repository is unchanged and no commit is created — when the
current revision equals the captured start revision; and otherwise (start
revision in the history, fresh hash for the new commit) it leaves exactly
one commit after the start revision, whose message is the fixed fallback
embedding the preset name and the final iteration count — the only
message `_do_squash` ever passes. -/
theorem squash_contract :
    (∀ (autoSquash dryRun : Bool) (startCommit : Option String),
        squashGuard autoSquash dryRun startCommit = true →
          autoSquash = true ∧ dryRun = false ∧ startCommit ≠ none) ∧
    (∀ (presetName : String) (iteration : Nat) (r : Repo) (newHash start : String),
        getCurrentCommit r = some start →
          doSquash presetName iteration (some start) r newHash = some (r, false)) ∧
    (∀ (presetName : String) (iteration : Nat) (r : Repo) (newHash start current : String),
        getCurrentCommit r = some current → current ≠ start →
        start ∈ r.commits.map Commit.hash → newHash ≠ start →
          ∃ r', doSquash presetName iteration (some start) r newHash = some (r', true) ∧
            getCommitsSince r' start =
              [{ hash := newHash, message := squashFallbackMessage presetName iteration }] ∧
            getCurrentCommit r' = some newHash) := by
  refine ⟨?_, ?_, ?_⟩
  · intro a d s h
    simp only [squashGuard, Bool.and_eq_true, Bool.not_eq_true'] at h
    exact ⟨h.1.1, h.1.2, Option.isSome_iff_ne_none.mp h.2⟩
  · intro presetName iteration r newHash start hcur
    simp [doSquash, hcur]
  · intro presetName iteration r newHash start current hcur hne hmem hfresh
    obtain ⟨c0, rest, hr⟩ : ∃ c0 rest, r.commits = c0 :: rest := by
      cases hc : r.commits with
      | nil => rw [getCurrentCommit, hc] at hcur; simp at hcur
      | cons a l => exact ⟨a, l, rfl⟩
    have hc0 : c0.hash = current := by
      rw [getCurrentCommit, hr] at hcur
      simpa using hcur
    have hany : r.commits.any (fun c => c.hash == start) = true := by
      rcases List.mem_map.mp hmem with ⟨c, hcmem, hchash⟩
      exact List.any_eq_true.mpr ⟨c, hcmem, by simp [hchash]⟩
    have hsince : getCommitsSince r start =
        (r.commits.takeWhile (fun c => c.hash != start)).reverse := by
      rw [getCommitsSince, if_pos hany]
    have htake : r.commits.takeWhile (fun c => c.hash != start) =
        c0 :: rest.takeWhile (fun c => c.hash != start) := by
      rw [hr, List.takeWhile_cons_of_pos (by simp [hc0, hne])]
    have hnonempty : (getCommitsSince r start).isEmpty = false := by
      rw [hsince, htake]
      simp
    obtain ⟨cs, tl, hdrop, hcs⟩ := dropWhile_hash_mem start r.commits hmem
    have hanyNew : ((((⟨newHash, squashFallbackMessage presetName iteration⟩ : Commit)) ::
        r.commits.dropWhile (fun c => c.hash != start)).any
          (fun c => c.hash == start)) = true := by
      rw [hdrop]
      simp [hcs]
    refine ⟨⟨(⟨newHash, squashFallbackMessage presetName iteration⟩ : Commit) ::
        r.commits.dropWhile (fun c => c.hash != start)⟩, ?_, ?_, rfl⟩
    · simp [doSquash, hcur, hne, squashCommits, hnonempty]
    · rw [getCommitsSince, if_pos hanyNew,
        List.takeWhile_cons_of_pos (by simp [hfresh]), hdrop,
        List.takeWhile_cons_of_neg (by simp [hcs])]
      simp

/-- Witness for C5 on a concrete three-commit repository. -/
theorem squash_contract_witness :
    ∃ r', doSquash "docs" 4 (some "c0")
        { commits := [{ hash := "c2", message := "[review] iteration 2" },
                      { hash := "c1", message := "[review] iteration 1" },
                      { hash := "c0", message := "base" }] } "s0" = some (r', true) ∧
      getCommitsSince r' "c0" =
        [{ hash := "s0", message := squashFallbackMessage "docs" 4 }] ∧
      getCurrentCommit r' = some "s0" :=
  squash_contract.2.2 "docs" 4
    { commits := [{ hash := "c2", message := "[review] iteration 2" },
                  { hash := "c1", message := "[review] iteration 1" },
                  { hash := "c0", message := "base" }] }
    "s0" "c0" "c2" (by decide) (by decide) (by decide) (by decide)

end AgentLoop
